import Mathlib

/-!
Verification of the waljs write-ahead-log library.

This file gives a shallow embedding of the core of the library
(`src/lib/segment-writer.ts`, `src/lib/segment-reader.ts`,
`src/lib/meta-manager.ts`, `src/lib/wal.ts`) and proves or refutes the
frozen specification claims about it.

Byte sequences are modelled as `List Nat` (each element a byte value),
32-bit machine integers as `Nat` (unsigned fields) or `Int` (the signed
`Commit` field), and the effect of a method on its file handle as an
explicit list of file operations.
-/

namespace Waljs

/-- An operation performed on an open file handle.  `write` is
`FileHandle.write`, `fsync` is `FileHandle.sync`/`FileHandle.datasync`
(the node call that forces bytes to stable storage). -/
inductive FileOp where
  | write (bytes : List Nat)
  | fsync
  deriving Repr, DecidableEq

/-- In-memory state of `BufferedWriter` (segment-writer.ts:74-128): the
fixed buffer capacity `bufferSize` and the bytes currently held in the
buffer (`this.buffer[0..this.size)`). -/
structure BufferedWriter where
  bufferSize : Nat
  buffer : List Nat
  deriving Repr, DecidableEq

namespace BufferedWriter

/-- `this.available` (segment-writer.ts:125-127): free space left in the buffer. -/
def available (w : BufferedWriter) : Nat :=
  w.bufferSize - w.buffer.length

/-- `BufferedWriter.flush` (segment-writer.ts:107-118).  If the buffer is
empty it returns at once; otherwise it issues one `FileHandle.write` with
the buffered bytes and empties the buffer.  The returned list is the
sequence of file operations performed: the source performs no
`FileHandle.sync`/`datasync` call, so no `FileOp.fsync` ever appears. -/
def flush (w : BufferedWriter) : BufferedWriter × List FileOp :=
  if w.buffer.length = 0 then (w, [])
  else ({ w with buffer := [] }, [FileOp.write w.buffer])

/-- The `while (remaining > this.available)` loop of `BufferedWriter.write`
(segment-writer.ts:82-105), followed by the trailing `if (remaining > 0)`
buffering step.  The loop in the source mutates `data` and `remaining`
only in its `else` branch; in the `this.size === 0` branch it performs a
direct `FileHandle.write` of the whole (current) `data` and leaves
`remaining`, `data` and the buffer untouched, so the loop re-enters with
identical state.  `fuel` bounds the number of loop iterations; the result
is `none` when the loop has not finished within `fuel` iterations. -/
def writeLoop (fuel : Nat) (w : BufferedWriter) (data : List Nat) :
    Option (BufferedWriter × List FileOp) :=
  match fuel with
  | 0 => none
  | fuel + 1 =>
    if data.length > w.available then
      if w.buffer.length = 0 then
        -- "Large write. Write directly to the file." — state unchanged.
        match writeLoop fuel w data with
        | none => none
        | some (w2, ops) => some (w2, FileOp.write data :: ops)
      else
        let slice := data.take w.available
        let w1 : BufferedWriter := { w with buffer := w.buffer ++ slice }
        let flushed := flush w1
        match writeLoop fuel flushed.1 (data.drop slice.length) with
        | none => none
        | some (w2, ops) => some (w2, flushed.2 ++ ops)
    else
      some ({ w with buffer := w.buffer ++ data }, [])

end BufferedWriter

/-! ## CRC-32 (IEEE)

The library computes `crc32.buf(payload) >>> 0` with the `crc-32` npm
package: the standard reflected CRC-32 with polynomial `0xEDB88320`,
initial value `0xFFFFFFFF` and final xor `0xFFFFFFFF`. -/

/-- One bit step of the reflected CRC-32 computation. -/
def crcBit (c : Nat) : Nat :=
  if c % 2 = 1 then (c / 2) ^^^ 0xEDB88320 else c / 2

/-- The CRC-32 table entry for byte value `n` (eight bit steps). -/
def crcTable (n : Nat) : Nat :=
  crcBit (crcBit (crcBit (crcBit (crcBit (crcBit (crcBit (crcBit n)))))))

/-- Fold one byte into a running CRC-32 state. -/
def crc32Update (crc b : Nat) : Nat :=
  (crc / 256) ^^^ crcTable ((crc ^^^ b) % 256)

/-- `crc32.buf(data) >>> 0`: the unsigned CRC-32 (IEEE) of a byte sequence. -/
def crc32 (data : List Nat) : Nat :=
  (data.foldl crc32Update 0xFFFFFFFF) ^^^ 0xFFFFFFFF

/-! ## Big-endian 32-bit integers -/

/-- `writeUInt32BE`: the four big-endian bytes of `n` (for `n < 2 ^ 32`). -/
def beBytes32 (n : Nat) : List Nat :=
  [n / 2 ^ 24 % 256, n / 2 ^ 16 % 256, n / 2 ^ 8 % 256, n % 256]

/-- `readUInt32BE`: recover a number from big-endian bytes. -/
def beRead32 (l : List Nat) : Nat :=
  l.foldl (fun a b => a * 256 + b) 0

/-! ## Meta index manager (`src/lib/meta-manager.ts`)

The meta file is a 20-byte header (`Marker, Base, Head, Commit,
CurrentSegment`) followed by a dense array of 8-byte `(SegmentID,
ByteOffset)` entries; slot `i` belongs to logical index `Base + i`.
We model the logical state of a `MetaFileManager`: the header fields as
numbers (`Commit` is signed) and the entry array as a list of pairs.
Buffered mode only delays when the same bytes hit disk (the in-memory
header plus the update queue always agree with this logical state, and
`sync()` drains the queue); the operation semantics proved here are the
mode-independent ones. -/

/-- Error kinds raised by `MetaFileManager` methods. -/
inductive MetaErr where
  | outOfOrderSegment
  | outOfOrderCommit
  | outOfBounds
  | truncateCommitted
  deriving Repr, DecidableEq

/-- Logical state of `MetaFileManager` (meta-manager.ts:45-391): header
fields `base`, `head`, `commitIndex` (signed, `-1` when nothing is
committed), `segmentID` (the `CurrentSegment` field), and the index
entry array `slots` (slot `i` holds the `(segmentID, byteOffset)` pair of
logical index `base + i`). -/
structure MetaFileManager where
  base : Nat
  head : Nat
  commitIndex : Int
  segmentID : Nat
  slots : List (Nat × Nat)
  deriving Repr, DecidableEq

namespace MetaFileManager

/-- `lastIndex` getter (meta-manager.ts:117-119): `head - 1` as a signed number. -/
def lastIndex (s : MetaFileManager) : Int :=
  (s.head : Int) - 1

/-- `localIndex` (meta-manager.ts:354-356): `logOffset - base`, as the array
slot of a logical index (meaningful for `base ≤ logOffset`). -/
def localIndex (s : MetaFileManager) (logOffset : Int) : Nat :=
  (logOffset - (s.base : Int)).toNat

/-- Writing an 8-byte entry at array slot `i` of the meta file.  A write
past the current end of file zero-fills the gap, so slots skipped over
read back as `(0, 0)`. -/
def setSlot (l : List (Nat × Nat)) (i : Nat) (v : Nat × Nat) : List (Nat × Nat) :=
  if i < l.length then l.set i v
  else l ++ List.replicate (i - l.length) (0, 0) ++ [v]

/-- Reading the 8-byte entry at array slot `i`; a read past the end of
file leaves the zeroed scratch buffer, hence `(0, 0)`. -/
def getSlot (l : List (Nat × Nat)) (i : Nat) : Nat × Nat :=
  l.getD i (0, 0)

/-- The segment recorded in the index entry of logical index `i`: the
first component of the pair that `position i` returns when `i` is in
bounds ("the segment containing `i`"). -/
def segmentOf (s : MetaFileManager) (i : Int) : Nat :=
  (getSlot s.slots (s.localIndex i)).1

/-- The state produced by `MetaFileManager.create` (meta-manager.ts:364-390)
on a fresh file: the header buffer is zero-allocated and only `Marker`,
`Base = 0`, `Head = 0` and `Commit = -1` are written explicitly, so the
`CurrentSegment` field keeps its zero fill. -/
def create : MetaFileManager :=
  { base := 0, head := 0, commitIndex := -1, segmentID := 0, slots := [] }

/-- `MetaFileManager.commit` (meta-manager.ts:133-150).  Indices below
`commitIndex + 1` are already committed and returned as-is; an index
above `commitIndex + 1` is an out-of-order commit; otherwise the commit
pointer advances.  The source performs no bounds check against `head`. -/
def commit (s : MetaFileManager) (index : Int) :
    Except MetaErr (MetaFileManager × Int) :=
  if index < s.commitIndex + 1 then .ok (s, s.commitIndex)
  else if index ≠ s.commitIndex + 1 then .error .outOfOrderCommit
  else .ok ({ s with commitIndex := index }, index)

/-- `MetaFileManager.position` (meta-manager.ts:152-186): bounds checks
against `base` and `head`, then (after draining the update queue) a read
of slot `localIndex(logIndex)`. -/
def position (s : MetaFileManager) (logIndex : Int) :
    Except MetaErr (Nat × Nat) :=
  if logIndex < (s.base : Int) then .error .outOfBounds
  else if (s.head : Int) ≤ logIndex then .error .outOfBounds
  else .ok (getSlot s.slots (s.localIndex logIndex))

/-- `MetaFileManager.truncate` (meta-manager.ts:188-200): rejects
truncation at or below the commit pointer, rejects `fromLogIndex ≥ head`,
otherwise sets `head := fromLogIndex` (persisting the header field) and
touches nothing else; the array tail past the new head is left in place. -/
def truncate (s : MetaFileManager) (fromLogIndex : Int) :
    Except MetaErr MetaFileManager :=
  if fromLogIndex ≤ s.commitIndex then .error .truncateCommitted
  else if (s.head : Int) ≤ fromLogIndex then .error .outOfBounds
  else .ok { s with head := fromLogIndex.toNat }

/-- `MetaFileManager.write` (meta-manager.ts:202-241), the meta append
operation: rejects a segment ID below `CurrentSegment`, stores the
`(segmentID, offset)` entry at slot `localIndex(head)`, increments
`head`, raises `CurrentSegment` when `segmentID` exceeds it, and returns
the pre-increment `head`. -/
def write (s : MetaFileManager) (segmentID offset : Nat) :
    Except MetaErr (MetaFileManager × Nat) :=
  if segmentID < s.segmentID then .error .outOfOrderSegment
  else
    .ok ({ s with
            head := s.head + 1
            slots := setSlot s.slots (s.localIndex s.head) (segmentID, offset)
            segmentID := if s.segmentID < segmentID then segmentID else s.segmentID },
         s.head)

/-- `COMPACTION_BATCH_SIZE` (meta-manager.ts:16). -/
def COMPACTION_BATCH_SIZE : Nat := 1000

/-- The copy loop of `compact`/`archive` (meta-manager.ts:279-291): read
up to `COMPACTION_BATCH_SIZE` entries from the old file, append what was
read to the new file, and stop after the first short read. -/
def copyBatches (l : List (Nat × Nat)) : List (Nat × Nat) :=
  if COMPACTION_BATCH_SIZE ≤ l.length then
    l.take COMPACTION_BATCH_SIZE ++ copyBatches (l.drop COMPACTION_BATCH_SIZE)
  else l
  termination_by l.length
  decreasing_by
    simp only [List.length_drop, COMPACTION_BATCH_SIZE] at *
    omega

/-- `MetaFileManager.compact` (meta-manager.ts:258-303), copy-and-swap:
after draining the queue, a sibling temp file receives a header with
`Base = commitIndex + 1` and unchanged `Head`, `Commit`,
`CurrentSegment`, then every entry from slot `localIndex(commitIndex+1)`
to the end of the old file, and is renamed over the old file.  The
resulting logical state: -/
def compact (s : MetaFileManager) : MetaFileManager :=
  { base := (s.commitIndex + 1).toNat
    head := s.head
    commitIndex := s.commitIndex
    segmentID := s.segmentID
    slots := copyBatches (s.slots.drop (s.localIndex (s.commitIndex + 1))) }

/-- `MetaFileManager.archive` (meta-manager.ts:305-352) builds its
replacement meta file exactly as `compact` does (the extra steps —
truncating the old file and moving it into the archive directory — affect
only the archived copy), so the live logical state it leaves behind is
the same as `compact`. -/
def archive (s : MetaFileManager) : MetaFileManager :=
  s.compact

/-- The global header invariant of the spec: `Base ≤ Commit + 1 ≤ Head`. -/
def invariantHolds (s : MetaFileManager) : Prop :=
  (s.base : Int) ≤ s.commitIndex + 1 ∧ s.commitIndex + 1 ≤ (s.head : Int)

instance (s : MetaFileManager) : Decidable (invariantHolds s) := by
  unfold invariantHolds; infer_instance

end MetaFileManager

/-! ## Segment reader (`src/lib/segment-reader.ts`) -/

/-- Error kinds raised by `SegmentReader` methods. -/
inductive ReaderErr where
  | unexpectedEOF
  | unknownType
  | corruptEntry
  | noCurrentEntry
  deriving Repr, DecidableEq

/-- The process-wide `EntryRegistry` together with the codec behaviour the
reader depends on: which 8-bit type tags have a registered factory, and
the codec's self-delimiting `read` helper, which consumes the payload
bytes of its entry from the remaining stream and leaves the rest. -/
structure Registry where
  isRegistered : Nat → Bool
  readPayload : Nat → List Nat → List Nat × List Nat

/-- State of a `SegmentReader` (segment-reader.ts:27-108): `hasEntry`
models `this._entry !== null`, `idx`/`typ`/`checksum` the fields parsed
from the last 9-byte header, `payload` the bytes buffered by the codec's
`read` helper. -/
structure SegmentReader where
  hasEntry : Bool
  idx : Nat
  typ : Nat
  checksum : Nat
  payload : List Nat
  deriving Repr, DecidableEq

namespace SegmentReader

/-- The constructor state (segment-reader.ts:35-42): `_entry = null`,
zeroed header fields, empty payload. -/
def new : SegmentReader :=
  { hasEntry := false, idx := 0, typ := 0, checksum := 0, payload := [] }

/-- `SegmentReader.readNext` (segment-reader.ts:59-82) against the
remaining bytes of the segment file.  Zero available bytes is clean EOF
(`false`); a short header is `UnexpectedEOF`; otherwise the 9-byte header
is parsed (4-byte BE index, 1-byte type, 4-byte BE checksum), the
registry allocates a codec for the type (`UnknownType` when absent; the
source nulls `_entry` before throwing), and the codec's `read` helper
buffers the payload bytes without decoding them.  No step of this
function computes or compares a CRC. -/
def readNext (reg : Registry) (r : SegmentReader) (stream : List Nat) :
    Except ReaderErr (Bool × SegmentReader × List Nat) :=
  if stream.length = 0 then .ok (false, r, stream)
  else if stream.length < 9 then .error .unexpectedEOF
  else
    let i := beRead32 (stream.take 4)
    let t := stream.getD 4 0
    let ck := beRead32 ((stream.drop 5).take 4)
    if reg.isRegistered t then
      let pr := reg.readPayload t (stream.drop 9)
      .ok (true, { hasEntry := true, idx := i, typ := t, checksum := ck, payload := pr.1 }, pr.2)
    else .error .unknownType

/-- `SegmentReader.decode` (segment-reader.ts:85-98): fails when no entry
has been buffered (`this._entry` still null), fails with a corruption
error when the stored header checksum differs from
`crc32.buf(payload) >>> 0`, and otherwise decodes the buffered payload. -/
def decode (r : SegmentReader) : Except ReaderErr (List Nat) :=
  if ¬r.hasEntry then .error .noCurrentEntry
  else if r.checksum ≠ crc32 r.payload then .error .corruptEntry
  else .ok r.payload

end SegmentReader

/-! ## WAL coordinator (`src/lib/wal.ts`)

The coordinator owns the meta manager, the ID of the currently open
segment writer (an `Option Nat` carrying the writer's `size`, `none`
before the first segment exists), and the set of `<N>.wal` files present
in the WAL directory. -/

/-- Error kinds raised by WAL coordinator methods. -/
inductive WalErr where
  | closed
  | meta (e : MetaErr)
  deriving Repr, DecidableEq

/-- Logical state of a `WAL` instance (wal.ts:21-58). -/
structure WAL where
  meta : MetaFileManager
  /-- `this.currSegmentID`, initialised to `-1` in the class body. -/
  currSegmentID : Int
  /-- `this.currSegmentWriter`: `some size` when a writer exists, where
  `size` is the writer's running byte count since construction. -/
  currWriterSize : Option Nat
  /-- The IDs `N` of the `<N>.wal` segment files in the WAL directory. -/
  segFiles : List Nat
  isClosed : Bool
  maxSegmentSize : Nat
  minEntriesForCompaction : Nat
  deriving Repr, DecidableEq

namespace WAL

/-- Propagate a meta-manager error out of a coordinator method. -/
def liftMeta : Except MetaErr α → Except WalErr α
  | .ok a => .ok a
  | .error e => .error (.meta e)

/-- `WAL.getCurrentSegmentID` (wal.ts:541-543). -/
def getCurrentSegmentID (w : WAL) : Int := w.currSegmentID

/-- `WAL.getLastIndex` (wal.ts:545-547): `head - 1` as a signed number. -/
def getLastIndex (w : WAL) : Int := (w.meta.head : Int) - 1

/-- `WAL.getNextIndex` (wal.ts:549-551). -/
def getNextIndex (w : WAL) : Nat := w.meta.head

/-- `WAL.commitIndex` getter (wal.ts:553-555). -/
def commitIndex (w : WAL) : Int := w.meta.commitIndex

/-- The state `init()` (wal.ts:68-106) produces on an empty WAL
directory: `index.META` is created fresh (`MetaFileManager.create`), no
`*.wal` files are found, and the method returns before touching
`currSegmentWriter` or `currSegmentID`. -/
def initEmpty (maxSegmentSize minEntriesForCompaction : Nat) : WAL :=
  { meta := .create
    currSegmentID := -1
    currWriterSize := none
    segFiles := []
    isClosed := false
    maxSegmentSize := maxSegmentSize
    minEntriesForCompaction := minEntriesForCompaction }

/-- Opening `${id}.wal` with flag `a+` creates the file when missing. -/
def addFile (files : List Nat) (id : Nat) : List Nat :=
  if id ∈ files then files else files ++ [id]

/-- `WAL.rollSegmentIfNeeded` (wal.ts:434-458): a no-op while a writer
exists whose size is below `maxSegmentSize`; otherwise increments
`currSegmentID`, opens (creating if necessary) the new segment file, and
installs a fresh `SegmentWriter` (whose running size starts at 0). -/
def rollSegmentIfNeeded (w : WAL) : WAL :=
  match w.currWriterSize with
  | some size =>
    if size < w.maxSegmentSize then w
    else
      { w with
          currSegmentID := w.currSegmentID + 1
          currWriterSize := some 0
          segFiles := addFile w.segFiles (w.currSegmentID + 1).toNat }
  | none =>
      { w with
          currSegmentID := w.currSegmentID + 1
          currWriterSize := some 0
          segFiles := addFile w.segFiles (w.currSegmentID + 1).toNat }

/-- `WAL.doWrite` (wal.ts:398-432): fail when closed, roll the segment if
needed, take `newIndex = head`, append the framed record to the segment
writer (`SegmentWriter.write` returns its pre-write size as the record's
byte offset and adds `9 + payload.length` to its size,
segment-writer.ts:44-58), append `(currSegmentID, offset)` to the meta
manager, schedule a sync, and return `newIndex`. -/
def doWrite (w : WAL) (typ checksum : Nat) (payload : List Nat) :
    Except WalErr (WAL × Nat) :=
  if w.isClosed then .error .closed
  else
    let w1 := w.rollSegmentIfNeeded
    let newIndex := w1.meta.head
    let offset := w1.currWriterSize.getD 0
    let w2 := { w1 with currWriterSize := some (offset + (9 + payload.length)) }
    match w2.meta.write w1.currSegmentID.toNat offset with
    | .error e => .error (.meta e)
    | .ok (m, _) => .ok ({ w2 with meta := m }, newIndex)

/-- The private `WAL.truncate` (wal.ts:460-490): look up the position of
`fromLogIndex`, truncate the meta index, then either truncate the current
segment file in place (same segment) or delete the segment files above
`pos.segmentID`, reopen that segment and rebuild the writer.  Segment
file *contents* are not tracked by this model, only the directory
listing. -/
def truncateFrom (w : WAL) (fromLogIndex : Int) : Except WalErr WAL :=
  match w.meta.position fromLogIndex with
  | .error e => .error (.meta e)
  | .ok pos =>
    match w.meta.truncate fromLogIndex with
    | .error e => .error (.meta e)
    | .ok m =>
      if (pos.1 : Int) = w.currSegmentID then
        .ok { w with meta := m }
      else
        .ok { w with
                meta := m
                segFiles := w.segFiles.filter
                  (fun id => ¬((pos.1 : Int) < (id : Int) ∧ (id : Int) ≤ w.currSegmentID))
                currSegmentID := (pos.1 : Int)
                currWriterSize := some 0 }

/-- `WAL.getEntry` (wal.ts:225-234) as far as control flow is concerned:
the position lookup can fail; the subsequent read-only open, `readOffset`
and decode yield the entry value, which never influences the coordinator
state transitions modelled here. -/
def getEntryPos (w : WAL) (index : Int) : Except WalErr (Nat × Nat) :=
  liftMeta (w.meta.position index)

/-- The `for` loop of `WAL.recover` (wal.ts:205-215), with `fuel` the
number of remaining iterations (`lastIndex - i + 1`): read the entry at
`i`, consult the handler; on `true` commit `i` and continue, on `false`
truncate at `i` and return. -/
def recoverLoop (handler : Int → Bool) : WAL → Nat → Int → Except WalErr WAL
  | w, 0, _ => .ok w
  | w, fuel + 1, i =>
    match w.getEntryPos i with
    | .error e => .error e
    | .ok _ =>
      if handler i then
        match w.meta.commit i with
        | .error e => .error (.meta e)
        | .ok (m, _) => recoverLoop handler { w with meta := m } fuel (i + 1)
      else w.truncateFrom i

/-- `WAL.recover` (wal.ts:189-216): fails when closed; the default
handler returns `false` for every entry; when `Commit == -1` or
`Commit == Head - 1` the method returns at once, otherwise it runs the
recovery loop from `Commit + 1` through `lastIndex`. -/
def recover (w : WAL) (handler : Int → Bool) : Except WalErr WAL :=
  if w.isClosed then .error .closed
  else if w.meta.commitIndex = -1 ∨ w.meta.commitIndex = w.meta.lastIndex then .ok w
  else recoverLoop handler w (w.meta.lastIndex - w.meta.commitIndex).toNat
         (w.meta.commitIndex + 1)

/-- `WAL.compact` (wal.ts:243-292): return `false` when `Commit == -1`,
`Commit == lastIndex` or `Commit - Base < minEntriesForCompaction`;
otherwise sync (no logical state change), look up the segment of the
commit index (`false` when it is segment 0) and of `base` (`false` when
both agree); otherwise rewrite the meta file via
`MetaFileManager.compact` and unlink the segment files
`firstSegmentID + i` for `i < segmentID - firstSegmentID`, i.e. the IDs
in `[firstSegmentID, segmentID)`. -/
def compact (w : WAL) : Except WalErr (WAL × Bool) :=
  if w.meta.commitIndex = -1 ∨ w.meta.commitIndex = w.meta.lastIndex ∨
      w.meta.commitIndex - (w.meta.base : Int) < (w.minEntriesForCompaction : Int) then
    .ok (w, false)
  else
    match w.meta.position w.meta.commitIndex with
    | .error e => .error (.meta e)
    | .ok pos =>
      if pos.1 = 0 then .ok (w, false)
      else
        match w.meta.position (w.meta.base : Int) with
        | .error e => .error (.meta e)
        | .ok fpos =>
          if pos.1 = fpos.1 then .ok (w, false)
          else
            .ok ({ w with
                    meta := w.meta.compact
                    segFiles := w.segFiles.filter
                      (fun id => ¬(fpos.1 ≤ id ∧ id < pos.1)) },
                 true)

end WAL

/-- `SegmentWriter.sync` (segment-writer.ts:63-65) simply flushes its
`BufferedWriter`, and the WAL sync driver (wal.ts:495-516) simply calls
`SegmentWriter.sync` before resolving the durability waiters, so the file
operations a WAL sync performs are exactly those of
`BufferedWriter.flush`. -/
def SegmentWriter.syncOps (w : BufferedWriter) : List FileOp :=
  (w.flush).2

/-- The WAL state of spec scenario 2: segment files `0.wal` … `4.wal`
holding 100 records each (logical indices `[100·s, 100·s + 99]` live in
segment `s`), a consistent meta index with `Head = 500`, `Commit = -1`,
and the WAL initialised on top (so `currSegmentID = 4`). -/
def walScenario2 : WAL :=
  { meta := { base := 0, head := 500, commitIndex := -1, segmentID := 4,
              slots := (List.range 500).map (fun i => (i / 100, 17 * (i % 100))) }
    currSegmentID := 4
    currWriterSize := some 0
    segFiles := [0, 1, 2, 3, 4]
    isClosed := false
    maxSegmentSize := 10485760
    minEntriesForCompaction := 1000 }

/-- A small compactable WAL state: three entries spread over segments 0
and 1, entry 1 committed, `minEntriesForCompaction = 1`. -/
def walCompactable : WAL :=
  { meta := { base := 0, head := 3, commitIndex := 1, segmentID := 1,
              slots := [(0, 0), (1, 0), (1, 17)] }
    currSegmentID := 1
    currWriterSize := some 34
    segFiles := [0, 1]
    isClosed := false
    maxSegmentSize := 1024
    minEntriesForCompaction := 1 }

/-- The state `WAL.compact` leaves behind on `walCompactable`: the meta
index rebased at `Commit + 1 = 2`, segment file `0.wal` deleted. -/
def walCompacted : WAL :=
  { meta := { base := 2, head := 3, commitIndex := 1, segmentID := 1,
              slots := [(1, 17)] }
    currSegmentID := 1
    currWriterSize := some 34
    segFiles := [1]
    isClosed := false
    maxSegmentSize := 1024
    minEntriesForCompaction := 1 }

/-! ## Helper lemmas -/

theorem beRead32_beBytes32 (n : Nat) (h : n < 2 ^ 32) : beRead32 (beBytes32 n) = n := by
  simp only [beBytes32, beRead32, List.foldl]
  omega

theorem copyBatches_eq (l : List (Nat × Nat)) : MetaFileManager.copyBatches l = l := by
  rw [MetaFileManager.copyBatches]
  split
  · rw [copyBatches_eq (l.drop MetaFileManager.COMPACTION_BATCH_SIZE)]
    exact List.take_append_drop _ l
  · rfl
  termination_by l.length
  decreasing_by
    simp only [List.length_drop, MetaFileManager.COMPACTION_BATCH_SIZE] at *
    omega

theorem getSlot_drop (l : List (Nat × Nat)) (n m : Nat) :
    MetaFileManager.getSlot (l.drop n) m = MetaFileManager.getSlot l (n + m) := by
  simp [MetaFileManager.getSlot, List.getD, List.getElem?_drop]

/-! ## Claims -/

/-- C1.  The spec says `flush()` writes any buffered bytes and then
issues a file-system sync, and that a WAL `write` returns only after an
fsync covering its bytes.  In the source, `BufferedWriter.flush` issues a
single `FileHandle.write` of the buffered bytes and nothing else — no
`FileHandle.sync`/`datasync` (fsync) call exists anywhere in the library
— so a WAL sync (which funnels through `flush`) never performs an fsync
either. -/
theorem flush_writes_but_never_fsyncs (w : BufferedWriter) :
    (w.flush).2 = (if w.buffer.length = 0 then [] else [FileOp.write w.buffer]) ∧
    FileOp.fsync ∉ (w.flush).2 ∧
    FileOp.fsync ∉ SegmentWriter.syncOps w := by
  unfold SegmentWriter.syncOps BufferedWriter.flush
  split <;> simp

/-- C2.  The spec says `BufferedWriter.write` always terminates and, when
the buffer is empty and the input exceeds the buffer capacity, writes the
input directly to the file exactly once.  In the source, the direct-write
branch of the `while` loop neither consumes `remaining` nor returns, so
the loop re-enters with unchanged state and never terminates (re-issuing
the direct write each iteration): with buffer capacity 4 and a 5-byte
input on an empty buffer, no iteration bound suffices. -/
theorem bufferedWrite_diverges_on_large_input (fuel : Nat) :
    BufferedWriter.writeLoop fuel ⟨4, []⟩ [1, 2, 3, 4, 5] = none := by
  induction fuel with
  | zero => rfl
  | succ n ih =>
    rw [BufferedWriter.writeLoop]
    simp [BufferedWriter.available, ih]

/-- C3 counterexample.  On the scenario-2 state (`Commit = -1`,
`Head = 500`), `recover()` with the default handler returns with the
state completely unchanged — `Head` stays 500 — instead of truncating to
`Head = 0` and discarding the 500 uncommitted entries as the claim
states. -/
theorem recover_with_no_commit_keeps_all_entries :
    walScenario2.recover (fun _ => false) = .ok walScenario2 ∧
    walScenario2.meta.head = 500 ∧ walScenario2.meta.commitIndex = -1 := by
  refine ⟨?_, rfl, rfl⟩
  rw [WAL.recover]
  simp [walScenario2]

/-- C3 amended.  `recover` (wal.ts:198-200) returns immediately, leaving
the WAL untouched, whenever `Commit == -1`: the truncate-to-`Commit + 1`
path is reachable only when `0 ≤ Commit < Head - 1`. -/
theorem recover_noop_of_commit_neg_one (w : WAL) (handler : Int → Bool)
    (hopen : w.isClosed = false) (hc : w.meta.commitIndex = -1) :
    w.recover handler = .ok w := by
  rw [WAL.recover, hopen, hc]
  simp

/-- Witness for `recover_noop_of_commit_neg_one` at the scenario-2 state. -/
theorem recover_noop_of_commit_neg_one_witness :
    walScenario2.recover (fun _ => true) = .ok walScenario2 :=
  recover_noop_of_commit_neg_one walScenario2 (fun _ => true) rfl rfl

/-- C4 counterexample.  `MetaFileManager.commit` performs no bounds check
against `Head`: on the freshly created meta state (`Base = 0`, `Head = 0`,
`Commit = -1`) the call `commit(0)` succeeds and leaves
`Commit = 0 > Head - 1 = -1`, violating `Base ≤ Commit + 1 ≤ Head`. -/
theorem commit_can_break_head_bound :
    MetaFileManager.commit .create 0 =
      .ok ({ base := 0, head := 0, commitIndex := 0, segmentID := 0, slots := [] }, 0) ∧
    ¬ MetaFileManager.invariantHolds
        { base := 0, head := 0, commitIndex := 0, segmentID := 0, slots := [] } := by
  exact ⟨rfl, by decide⟩

/-- C4 amended.  The header invariant `Base ≤ Commit + 1 ≤ Head` holds
for the initial state and is preserved by `write` (append), `truncate`,
`compact` and `archive`; `commit(i)` preserves it provided
`i ≤ lastIndex` (i.e. the committed index was actually assigned) — the
unchecked call `commit(Head)` is the one successful operation that can
break it. -/
theorem meta_invariant_preservation :
    MetaFileManager.invariantHolds .create ∧
    (∀ (s : MetaFileManager) (segID off : Nat) (s' : MetaFileManager) (r : Nat),
      s.invariantHolds → s.write segID off = .ok (s', r) → s'.invariantHolds) ∧
    (∀ (s : MetaFileManager) (k : Int) (s' : MetaFileManager),
      s.invariantHolds → s.truncate k = .ok s' → s'.invariantHolds) ∧
    (∀ s : MetaFileManager, s.invariantHolds → s.compact.invariantHolds) ∧
    (∀ s : MetaFileManager, s.invariantHolds → s.archive.invariantHolds) ∧
    (∀ (s : MetaFileManager) (i : Int) (s' : MetaFileManager) (r : Int),
      s.invariantHolds → i ≤ s.lastIndex → s.commit i = .ok (s', r) →
      s'.invariantHolds) := by
  refine ⟨by decide, ?_, ?_, ?_, ?_, ?_⟩
  · intro s segID off s' r hinv h
    rw [MetaFileManager.write] at h
    split at h
    · exact absurd h (by simp)
    · simp only [Except.ok.injEq, Prod.mk.injEq] at h
      obtain ⟨h1, -⟩ := h
      obtain ⟨hb, hc⟩ := hinv
      subst h1
      constructor <;> simp <;> omega
  · intro s k s' hinv h
    rw [MetaFileManager.truncate] at h
    split at h
    · exact absurd h (by simp)
    · split at h
      · exact absurd h (by simp)
      · obtain ⟨hb, hc⟩ := hinv
        rename_i hk1 hk2
        obtain rfl := Except.ok.inj h
        constructor <;> simp <;> omega
  · intro s hinv
    obtain ⟨hb, hc⟩ := hinv
    constructor <;> simp [MetaFileManager.compact] <;> omega
  · intro s hinv
    obtain ⟨hb, hc⟩ := hinv
    constructor <;> simp [MetaFileManager.archive, MetaFileManager.compact] <;> omega
  · intro s i s' r hinv hle h
    rw [MetaFileManager.commit] at h
    split at h
    · simp only [Except.ok.injEq, Prod.mk.injEq] at h
      obtain ⟨rfl, -⟩ := h
      exact hinv
    · split at h
      · exact absurd h (by simp)
      · obtain ⟨hb, hc⟩ := hinv
        rename_i hlt heq
        simp only [Except.ok.injEq, Prod.mk.injEq] at h
        obtain ⟨rfl, -⟩ := h
        unfold MetaFileManager.lastIndex at hle
        constructor <;> simp <;> omega

/-- Witness for `meta_invariant_preservation`: committing index 0 of a
two-entry meta state preserves the invariant. -/
theorem meta_invariant_preservation_witness :
    MetaFileManager.invariantHolds
      { base := 0, head := 2, commitIndex := 0, segmentID := 0,
        slots := [(0, 0), (0, 17)] } :=
  meta_invariant_preservation.2.2.2.2.2
    { base := 0, head := 2, commitIndex := -1, segmentID := 0, slots := [(0, 0), (0, 17)] }
    0
    { base := 0, head := 2, commitIndex := 0, segmentID := 0, slots := [(0, 0), (0, 17)] }
    0 (by decide) (by decide) rfl

/-- C5.  The meta append operation `MetaFileManager.write(segmentID,
byteOffset)` fails with `OutOfOrderSegment` exactly when
`segmentID < CurrentSegment`; otherwise it stores `(segmentID,
byteOffset)` at slot `localIndex(Head) = Head - Base`, increments `Head`,
raises `CurrentSegment` to `segmentID` when it is larger, and returns the
pre-increment `Head`. -/
theorem meta_write_spec (s : MetaFileManager) (segID off : Nat) :
    (s.write segID off = .error .outOfOrderSegment ↔ segID < s.segmentID) ∧
    (s.segmentID ≤ segID →
      s.write segID off =
        .ok ({ s with
                head := s.head + 1
                slots := MetaFileManager.setSlot s.slots (s.head - s.base) (segID, off)
                segmentID := max s.segmentID segID },
             s.head)) := by
  have hloc : s.localIndex (s.head : Int) = s.head - s.base := by
    unfold MetaFileManager.localIndex
    omega
  constructor
  · rw [MetaFileManager.write]
    split
    · simpa
    · rename_i hge
      simp only [not_lt] at hge
      simp
      omega
  · intro hge
    rw [MetaFileManager.write]
    rw [if_neg (by omega), hloc]
    have hmax : (if s.segmentID < segID then segID else s.segmentID) = max s.segmentID segID := by
      split <;> omega
    rw [hmax]

/-- Witness for `meta_write_spec`: appending `(1, 7)` to the fresh meta
state succeeds, stores the entry at slot 0, and returns index 0. -/
theorem meta_write_spec_witness :
    MetaFileManager.write .create 1 7 =
      .ok ({ MetaFileManager.create with
              head := MetaFileManager.create.head + 1
              slots := MetaFileManager.setSlot MetaFileManager.create.slots
                (MetaFileManager.create.head - MetaFileManager.create.base) (1, 7)
              segmentID := max MetaFileManager.create.segmentID 1 },
           MetaFileManager.create.head) :=
  (meta_write_spec .create 1 7).2 (by decide)

/-- C7.  `MetaFileManager.truncate(k)`, on a state satisfying the header
invariant, fails with `OutOfBounds` exactly when `k ≥ Head`, fails with
`TruncateCommitted` exactly when `k ≤ Commit`, and otherwise succeeds,
setting `Head = k` while leaving `Base`, `Commit`, `CurrentSegment` and
the whole entry array unchanged — in particular every position lookup
below `k` is unaffected. -/
theorem meta_truncate_spec (s : MetaFileManager) (k : Int)
    (hinv : s.invariantHolds) :
    (s.truncate k = .error .outOfBounds ↔ (s.head : Int) ≤ k) ∧
    (s.truncate k = .error .truncateCommitted ↔ k ≤ s.commitIndex) ∧
    (s.commitIndex < k → k < (s.head : Int) →
      s.truncate k = .ok { s with head := k.toNat } ∧
      ∀ i : Int, (s.base : Int) ≤ i → i < k →
        MetaFileManager.position { s with head := k.toNat } i = s.position i) := by
  obtain ⟨hb, hc⟩ := hinv
  refine ⟨?_, ?_, ?_⟩
  · rw [MetaFileManager.truncate]
    split
    · rename_i hk
      simp
      omega
    · split
      · simpa
      · simp
        omega
  · rw [MetaFileManager.truncate]
    split
    · simpa
    · split <;> simp <;> omega
  · intro hk1 hk2
    constructor
    · rw [MetaFileManager.truncate, if_neg (by omega), if_neg (by omega)]
    · intro i hi1 hi2
      rw [MetaFileManager.position, MetaFileManager.position]
      rw [if_neg (by simp; omega), if_neg (by simp; omega), if_neg (by simp; omega),
          if_neg (by simp; omega)]
      rfl

/-- Witness for `meta_truncate_spec`: truncating the uncommitted tail
`[3, 6)` of a six-entry meta state with `Commit = 2` sets `Head = 3` and
leaves the lookup of index 1 unchanged. -/
theorem meta_truncate_spec_witness :
    MetaFileManager.truncate
        { base := 0, head := 6, commitIndex := 2, segmentID := 0,
          slots := [(0, 0), (0, 10), (0, 20), (0, 30), (0, 40), (0, 50)] } 3 =
      .ok { base := 0, head := 3, commitIndex := 2, segmentID := 0,
            slots := [(0, 0), (0, 10), (0, 20), (0, 30), (0, 40), (0, 50)] } :=
  ((meta_truncate_spec
      { base := 0, head := 6, commitIndex := 2, segmentID := 0,
        slots := [(0, 0), (0, 10), (0, 20), (0, 30), (0, 40), (0, 50)] } 3
      (by decide)).2.2 (by decide) (by decide)).1

/-- C8.  `WAL.compact()` returns `false` and leaves the state unchanged —
no meta rewrite, no segment deletion, `Base`/`Head`/`Commit`/
`CurrentSegment` untouched — whenever `Commit == -1`, or
`Commit == Head - 1`, or `Commit - Base < minEntriesForCompaction`, or
the segment containing `Commit` equals the segment containing `Base`, or
that segment is segment 0. -/
theorem compact_rejects (w : WAL) (hinv : w.meta.invariantHolds)
    (hcond : w.meta.commitIndex = -1 ∨
             w.meta.commitIndex = (w.meta.head : Int) - 1 ∨
             w.meta.commitIndex - (w.meta.base : Int) < (w.minEntriesForCompaction : Int) ∨
             w.meta.segmentOf w.meta.commitIndex = w.meta.segmentOf (w.meta.base : Int) ∨
             w.meta.segmentOf w.meta.commitIndex = 0) :
    w.compact = .ok (w, false) := by
  obtain ⟨hbI, hcI⟩ := hinv
  rw [WAL.compact]
  split
  · rfl
  · rename_i hno
    rw [MetaFileManager.lastIndex] at hno
    push_neg at hno
    obtain ⟨h1, h2, h3⟩ := hno
    have hposc : w.meta.position w.meta.commitIndex =
        .ok (MetaFileManager.getSlot w.meta.slots (w.meta.localIndex w.meta.commitIndex)) := by
      rw [MetaFileManager.position, if_neg (by omega), if_neg (by omega)]
    rw [hposc]
    dsimp only
    by_cases hz : w.meta.segmentOf w.meta.commitIndex = 0
    · unfold MetaFileManager.segmentOf at hz
      rw [if_pos hz]
    · have hz' : ¬(MetaFileManager.getSlot w.meta.slots
          (w.meta.localIndex w.meta.commitIndex)).1 = 0 := hz
      rw [if_neg hz']
      have hposb : w.meta.position (w.meta.base : Int) =
          .ok (MetaFileManager.getSlot w.meta.slots (w.meta.localIndex (w.meta.base : Int))) := by
        rw [MetaFileManager.position, if_neg (by omega), if_neg (by omega)]
      rw [hposb]
      dsimp only
      have heq : w.meta.segmentOf w.meta.commitIndex = w.meta.segmentOf (w.meta.base : Int) := by
        rcases hcond with hc1 | hc2 | hc3 | hc4 | hc5
        · exact absurd hc1 h1
        · exact absurd hc2 h2
        · exact absurd hc3 (by omega)
        · exact hc4
        · exact absurd hc5 hz
      unfold MetaFileManager.segmentOf at heq
      rw [if_pos heq]

/-- Witness for `compact_rejects`: on a freshly initialised empty WAL
(`Commit = -1`), `compact()` returns `false` and changes nothing. -/
theorem compact_rejects_witness :
    (WAL.initEmpty 10485760 1000).compact = .ok (WAL.initEmpty 10485760 1000, false) :=
  compact_rejects (WAL.initEmpty 10485760 1000) (by decide) (Or.inl (by decide))

/-- C6.  When `WAL.compact()` succeeds (returns `true`) on a state whose
meta index satisfies the header invariant and whose directory holds no
segment file below the segment of `Base`: afterwards `Base` equals the
pre-compaction `Commit` plus one; `Head`, `Commit` and `CurrentSegment`
are unchanged; every position lookup for logical indices in
`[Commit + 1, Head)` is preserved; and the surviving segment files are
exactly those with ID at least the segment `sc` containing the
pre-compaction `Commit` (all files with smaller IDs were deleted). -/
theorem compact_success_spec (w w' : WAL) (sb ob sc oc : Nat)
    (hinv : w.meta.invariantHolds)
    (hb : w.meta.position (w.meta.base : Int) = .ok (sb, ob))
    (hc : w.meta.position w.meta.commitIndex = .ok (sc, oc))
    (hfiles : ∀ id ∈ w.segFiles, sb ≤ id)
    (h : w.compact = .ok (w', true)) :
    (w'.meta.base : Int) = w.meta.commitIndex + 1 ∧
    w'.meta.head = w.meta.head ∧
    w'.meta.commitIndex = w.meta.commitIndex ∧
    w'.meta.segmentID = w.meta.segmentID ∧
    (∀ i : Int, w.meta.commitIndex + 1 ≤ i → i < (w.meta.head : Int) →
      w'.meta.position i = w.meta.position i) ∧
    (∀ id : Nat, id ∈ w'.segFiles ↔ id ∈ w.segFiles ∧ sc ≤ id) := by
  obtain ⟨hbI, hcI⟩ := hinv
  have hbnd : (w.meta.base : Int) ≤ w.meta.commitIndex ∧
      w.meta.commitIndex < (w.meta.head : Int) := by
    rw [MetaFileManager.position] at hc
    split at hc
    · exact absurd hc (by simp)
    · split at hc
      · exact absurd hc (by simp)
      · rename_i hc1 hc2
        omega
  rw [WAL.compact] at h
  split at h
  · simp at h
  · rw [hc] at h
    dsimp only at h
    split at h
    · simp at h
    · rw [hb] at h
      dsimp only at h
      split at h
      · simp at h
      · rename_i hsc0 hscsb
        simp only [Except.ok.injEq, Prod.mk.injEq, and_true] at h
        subst h
        refine ⟨by simp [MetaFileManager.compact]; omega,
                rfl, rfl, rfl, ?_, ?_⟩
        · intro i hi1 hi2
          rw [MetaFileManager.position, MetaFileManager.position]
          rw [if_neg (by simp [MetaFileManager.compact]; omega),
              if_neg (by simp [MetaFileManager.compact]; omega),
              if_neg (by omega), if_neg (by omega)]
          show Except.ok (MetaFileManager.getSlot
              (MetaFileManager.copyBatches
                (w.meta.slots.drop (w.meta.localIndex (w.meta.commitIndex + 1))))
              (w.meta.compact.localIndex i)) = _
          rw [copyBatches_eq, getSlot_drop]
          congr 2
          simp only [MetaFileManager.localIndex, MetaFileManager.compact]
          omega
        · intro id
          show id ∈ w.segFiles.filter (fun id => ¬(sb ≤ id ∧ id < sc)) ↔ _
          simp only [List.mem_filter, decide_eq_true_eq]
          constructor
          · rintro ⟨hm, hcd⟩
            refine ⟨hm, ?_⟩
            have := hfiles id hm
            omega
          · rintro ⟨hm, hge⟩
            exact ⟨hm, by omega⟩

/-- Witness for `compact_success_spec`: compacting `walCompactable`
(commit at segment 1, base at segment 0) leaves `Head` unchanged. -/
theorem compact_success_spec_witness :
    walCompacted.meta.head = walCompactable.meta.head :=
  (compact_success_spec walCompactable walCompacted 0 0 1 0
    (by decide) rfl rfl (by decide)
    (by
      rw [WAL.compact]
      rw [if_neg (by decide)]
      have hpc : walCompactable.meta.position walCompactable.meta.commitIndex =
          .ok (1, 0) := rfl
      rw [hpc]
      dsimp only
      rw [if_neg (by decide)]
      have hpb : walCompactable.meta.position (walCompactable.meta.base : Int) =
          .ok (0, 0) := rfl
      rw [hpb]
      dsimp only
      rw [if_neg (by decide)]
      have hmeta : walCompactable.meta.compact = walCompacted.meta := by
        rw [MetaFileManager.compact]
        rw [show walCompactable.meta.slots.drop
              (walCompactable.meta.localIndex (walCompactable.meta.commitIndex + 1)) =
            [(1, 17)] from rfl]
        rw [copyBatches_eq]
        rfl
      rw [hmeta]
      rfl)).2.1

/-- C9.  `SegmentReader.decode()` fails with `NoCurrentEntry` when no
successful `readNext()` preceded it (the constructor state has
`_entry = null`, and only `readNext` sets it), fails with `CorruptEntry`
exactly when the CRC-32 of the buffered payload differs from the header
CRC, and otherwise decodes and returns the buffered entry.  `readNext()`
itself never validates the checksum: on a frame with header
`(i, t, ck)` it succeeds and stores `ck` verbatim for *every* value of
`ck`, whether or not it matches the payload's CRC. -/
theorem segment_reader_decode_spec :
    SegmentReader.new.hasEntry = false ∧
    (∀ r : SegmentReader, r.hasEntry = false → r.decode = .error .noCurrentEntry) ∧
    (∀ r : SegmentReader, r.hasEntry = true →
      (r.decode = .error .corruptEntry ↔ r.checksum ≠ crc32 r.payload) ∧
      (r.checksum = crc32 r.payload → r.decode = .ok r.payload)) ∧
    (∀ (reg : Registry) (r : SegmentReader) (i t ck : Nat) (tail : List Nat),
      i < 2 ^ 32 → ck < 2 ^ 32 → reg.isRegistered t = true →
      SegmentReader.readNext reg r (beBytes32 i ++ t :: (beBytes32 ck ++ tail)) =
        .ok (true,
             { hasEntry := true, idx := i, typ := t, checksum := ck,
               payload := (reg.readPayload t tail).1 },
             (reg.readPayload t tail).2)) := by
  refine ⟨rfl, ?_, ?_, ?_⟩
  · intro r hr
    rw [SegmentReader.decode, hr]
    rfl
  · intro r hr
    have hd : r.decode =
        if r.checksum ≠ crc32 r.payload then .error .corruptEntry else .ok r.payload := by
      rw [SegmentReader.decode, hr]
      simp
    constructor
    · rw [hd]
      constructor
      · intro h
        by_contra hcn
        rw [if_neg (show ¬(r.checksum ≠ crc32 r.payload) by simp [hcn])] at h
        exact absurd h (by simp)
      · intro hne
        rw [if_pos hne]
    · intro hck
      rw [hd, if_neg (by simp [hck])]
  · intro reg r i t ck tail hi hck hreg
    simp only [SegmentReader.readNext, beBytes32, List.cons_append, List.nil_append,
      List.length_cons, List.getD, beRead32, List.foldl, List.take, List.drop,
      List.get?_cons_succ, List.get?_cons_zero, Option.getD_some, List.append_eq,
      List.nil_append]
    rw [if_neg (by omega), if_neg (by omega), if_pos hreg]
    simp only [Except.ok.injEq, Prod.mk.injEq, SegmentReader.mk.injEq, and_true, true_and]
    have h24 : (2 : Nat) ^ 24 = 16777216 := rfl
    have h16 : (2 : Nat) ^ 16 = 65536 := rfl
    have h8 : (2 : Nat) ^ 8 = 256 := rfl
    have h32 : (2 : Nat) ^ 32 = 4294967296 := rfl
    rw [h32] at hi hck
    constructor <;> · rw [h24, h16, h8]; omega

/-- Witness for `segment_reader_decode_spec`: on a frame whose header CRC
is 1 but whose one-byte payload `[0]` has a different CRC-32, `readNext`
(with a registry that knows type 0 and a codec consuming one byte)
succeeds anyway, and the resulting reader state fails `decode` with the
corruption error. -/
theorem segment_reader_decode_spec_witness :
    SegmentReader.readNext
        { isRegistered := fun _ => true,
          readPayload := fun _ s => (s.take 1, s.drop 1) }
        SegmentReader.new (beBytes32 0 ++ 0 :: (beBytes32 1 ++ [0])) =
      .ok (true,
           { hasEntry := true, idx := 0, typ := 0, checksum := 1, payload := [0] },
           []) ∧
    SegmentReader.decode
        { hasEntry := true, idx := 0, typ := 0, checksum := 1, payload := [0] } =
      .error .corruptEntry := by
  constructor
  · exact segment_reader_decode_spec.2.2.2
      { isRegistered := fun _ => true, readPayload := fun _ s => (s.take 1, s.drop 1) }
      SegmentReader.new 0 0 1 [0] (by decide) (by decide) rfl
  · exact ((segment_reader_decode_spec.2.2.1
      { hasEntry := true, idx := 0, typ := 0, checksum := 1, payload := [0] }
      rfl).1).mpr (by decide)

/-- C10.  After `init()` on an empty WAL directory and before the first
write, the coordinator reports `lastIndex = -1`, `nextIndex = 0`,
`commitIndex = -1` and `currentSegmentID = -1` — even though the freshly
created meta header stores `CurrentSegment = 0` — and the first `write`
is what rolls to segment 0, creating `0.wal` and setting
`currentSegmentID = 0`. -/
theorem wal_init_empty_accessors (maxSeg minEntries t ck : Nat) (payload : List Nat) :
    (WAL.initEmpty maxSeg minEntries).getLastIndex = -1 ∧
    (WAL.initEmpty maxSeg minEntries).getNextIndex = 0 ∧
    (WAL.initEmpty maxSeg minEntries).commitIndex = -1 ∧
    (WAL.initEmpty maxSeg minEntries).getCurrentSegmentID = -1 ∧
    (WAL.initEmpty maxSeg minEntries).meta.segmentID = 0 ∧
    (WAL.initEmpty maxSeg minEntries).doWrite t ck payload =
      .ok ({ meta := { base := 0, head := 1, commitIndex := -1, segmentID := 0,
                       slots := [(0, 0)] }
             currSegmentID := 0
             currWriterSize := some (9 + payload.length)
             segFiles := [0]
             isClosed := false
             maxSegmentSize := maxSeg
             minEntriesForCompaction := minEntries }, 0) := by
  refine ⟨rfl, rfl, rfl, rfl, rfl, ?_⟩
  simp [WAL.doWrite, WAL.initEmpty, WAL.rollSegmentIfNeeded, WAL.addFile,
    MetaFileManager.write, MetaFileManager.create, MetaFileManager.setSlot,
    MetaFileManager.localIndex]

end Waljs
